import Mathlib

/-!
Verification of the network-address classification and bucketing core
(netaddress.cpp): address values, RFC classifier predicates, reachability
scoring, group bucketing, and subnet values, with theorems checking the
specification's claims against the embedded code.

Addresses are 16 stored bytes (`Fin 16 → Fin 256`, index 0 = first stored
byte) plus a network-family tag.  The scope identifier field of the source
class is omitted: no operation modelled here reads it.
-/

set_option maxRecDepth 4000

namespace Netaddr

/-- Modelled from the spec: the `Network` enumeration (family tag) is declared
in the header netaddress.h, which is not part of the provided sources; values
follow the declaration order Unroutable, IPv4, IPv6, Onion, Internal, with
`NET_MAX` = 5 (the source file uses `NET_MAX + 0` and `NET_MAX + 1` as extra
pseudo-classes inside `GetReachabilityFrom`). -/
inductive Network where
  | NET_UNROUTABLE
  | NET_IPV4
  | NET_IPV6
  | NET_ONION
  | NET_INTERNAL
deriving DecidableEq, Repr

/-- Numeric value of an enumerator of `Network` (stored in a `uint8_t`). -/
def Network.toByte : Network → Nat
  | .NET_UNROUTABLE => 0
  | .NET_IPV4 => 1
  | .NET_IPV6 => 2
  | .NET_ONION => 3
  | .NET_INTERNAL => 4

/-- Build 16 bytes from a list of byte values (missing entries are 0). -/
def byteVec (l : List Nat) : Fin 16 → Fin 256 :=
  fun i => ⟨l.getD i.val 0 % 256, Nat.mod_lt _ (by omega)⟩

def pchIPv4 : Fin 16 → Fin 256 :=
  byteVec [0, 0, 0, 0, 0, 0, 0, 0, 0, 0, 0xff, 0xff]

def pchOnionCat : Fin 16 → Fin 256 :=
  byteVec [0xFD, 0x87, 0xD8, 0x7E, 0xEB, 0x43]

/-- 0xFD + sha256("bitcoin")[0:5] (`g_internal_prefix` in the source). -/
def g_internal_pfx : Fin 16 → Fin 256 :=
  byteVec [0xFD, 0x6B, 0x88, 0xC0, 0x87, 0x24]

def pchSingleAddressNetmask : Fin 16 → Fin 256 :=
  fun _ => ⟨255, by omega⟩

structure CNetAddr where
  m_net : Network
  ip : Fin 16 → Fin 256

instance : DecidableEq CNetAddr := fun a b =>
  decidable_of_iff (a.m_net = b.m_net ∧ a.ip = b.ip)
    (by cases a; cases b; simp)

/-- `std::memcmp(b, p, k) == 0` for 16-byte buffers `b`, `p`. -/
def bufPfxEq (b p : Fin 16 → Fin 256) (k : Nat) : Bool :=
  decide (∀ i : Fin 16, i.val < k → b i = p i)

/-- `std::memcmp(a.ip, p, k) == 0` for a 16-byte buffer `p`. -/
def pfxEq (a : CNetAddr) (p : Fin 16 → Fin 256) (k : Nat) : Bool :=
  bufPfxEq a.ip p k

/-- Constructing an address from a raw 16-byte buffer (`SetLegacyIPv6`):
derives the family by testing the IPv4 prefix, the onion prefix, then the
internal prefix, and stores the buffer verbatim. -/
def SetLegacyIPv6 (ipv6 : Fin 16 → Fin 256) : CNetAddr :=
  if bufPfxEq ipv6 pchIPv4 12 then { m_net := .NET_IPV4, ip := ipv6 }
  else if bufPfxEq ipv6 pchOnionCat 6 then { m_net := .NET_ONION, ip := ipv6 }
  else if bufPfxEq ipv6 g_internal_pfx 6 then { m_net := .NET_INTERNAL, ip := ipv6 }
  else { m_net := .NET_IPV6, ip := ipv6 }

/-- `GetByte(n)` returns `ip[15 - n]` (least-significant-byte-indexed); all
call sites pass `0 ≤ n ≤ 15`, so the `% 16` guard never truncates. -/
def GetByte (a : CNetAddr) (n : Nat) : Nat :=
  (a.ip ⟨15 - n % 16, by omega⟩).val

def IsIPv4 (a : CNetAddr) : Bool := decide (a.m_net = .NET_IPV4)

def IsIPv6 (a : CNetAddr) : Bool := decide (a.m_net = .NET_IPV6)

def IsRFC1918 (a : CNetAddr) : Bool :=
  IsIPv4 a &&
    (decide (GetByte a 3 = 10) ||
     (decide (GetByte a 3 = 192) && decide (GetByte a 2 = 168)) ||
     (decide (GetByte a 3 = 172) &&
      (decide (16 ≤ GetByte a 2) && decide (GetByte a 2 ≤ 31))))

def IsRFC2544 (a : CNetAddr) : Bool :=
  IsIPv4 a && decide (GetByte a 3 = 198) &&
    (decide (GetByte a 2 = 18) || decide (GetByte a 2 = 19))

def IsRFC3927 (a : CNetAddr) : Bool :=
  IsIPv4 a && (decide (GetByte a 3 = 169) && decide (GetByte a 2 = 254))

def IsRFC6598 (a : CNetAddr) : Bool :=
  IsIPv4 a && decide (GetByte a 3 = 100) &&
    decide (64 ≤ GetByte a 2) && decide (GetByte a 2 ≤ 127)

def IsRFC5737 (a : CNetAddr) : Bool :=
  IsIPv4 a &&
    ((decide (GetByte a 3 = 192) && decide (GetByte a 2 = 0) && decide (GetByte a 1 = 2)) ||
     (decide (GetByte a 3 = 198) && decide (GetByte a 2 = 51) && decide (GetByte a 1 = 100)) ||
     (decide (GetByte a 3 = 203) && decide (GetByte a 2 = 0) && decide (GetByte a 1 = 113)))

def IsRFC3849 (a : CNetAddr) : Bool :=
  IsIPv6 a && decide (GetByte a 15 = 0x20) && decide (GetByte a 14 = 0x01) &&
    decide (GetByte a 13 = 0x0D) && decide (GetByte a 12 = 0xB8)

def IsRFC3964 (a : CNetAddr) : Bool :=
  IsIPv6 a && decide (GetByte a 15 = 0x20) && decide (GetByte a 14 = 0x02)

def pchRFC6052 : Fin 16 → Fin 256 :=
  byteVec [0, 0x64, 0xFF, 0x9B, 0, 0, 0, 0, 0, 0, 0, 0]

def IsRFC6052 (a : CNetAddr) : Bool :=
  IsIPv6 a && pfxEq a pchRFC6052 12

def IsRFC4380 (a : CNetAddr) : Bool :=
  IsIPv6 a && decide (GetByte a 15 = 0x20) && decide (GetByte a 14 = 0x01) &&
    decide (GetByte a 13 = 0) && decide (GetByte a 12 = 0)

def pchRFC4862 : Fin 16 → Fin 256 :=
  byteVec [0xFE, 0x80, 0, 0, 0, 0, 0, 0]

def IsRFC4862 (a : CNetAddr) : Bool :=
  IsIPv6 a && pfxEq a pchRFC4862 8

def IsRFC4193 (a : CNetAddr) : Bool :=
  IsIPv6 a && decide (GetByte a 15 &&& 0xFE = 0xFC)

def pchRFC6145 : Fin 16 → Fin 256 :=
  byteVec [0, 0, 0, 0, 0, 0, 0, 0, 0xFF, 0xFF, 0, 0]

def IsRFC6145 (a : CNetAddr) : Bool :=
  IsIPv6 a && pfxEq a pchRFC6145 12

def IsRFC4843 (a : CNetAddr) : Bool :=
  IsIPv6 a && decide (GetByte a 15 = 0x20) && decide (GetByte a 14 = 0x01) &&
    decide (GetByte a 13 = 0x00) && decide (GetByte a 12 &&& 0xF0 = 0x10)

def IsRFC7343 (a : CNetAddr) : Bool :=
  IsIPv6 a && decide (GetByte a 15 = 0x20) && decide (GetByte a 14 = 0x01) &&
    decide (GetByte a 13 = 0x00) && decide (GetByte a 12 &&& 0xF0 = 0x20)

/-- Note: the source checks the raw byte pattern with no IPv6 family guard. -/
def IsHeNet (a : CNetAddr) : Bool :=
  decide (GetByte a 15 = 0x20) && decide (GetByte a 14 = 0x01) &&
    decide (GetByte a 13 = 0x04) && decide (GetByte a 12 = 0x70)

def IsTor (a : CNetAddr) : Bool := decide (a.m_net = .NET_ONION)

def IsInternal (a : CNetAddr) : Bool := decide (a.m_net = .NET_INTERNAL)

def pchLocal : Fin 16 → Fin 256 :=
  byteVec [0, 0, 0, 0, 0, 0, 0, 0, 0, 0, 0, 0, 0, 0, 0, 1]

def IsLocal (a : CNetAddr) : Bool :=
  (IsIPv4 a && (decide (GetByte a 3 = 127) || decide (GetByte a 3 = 0))) ||
  (IsIPv6 a && pfxEq a pchLocal 16)

def IsValid (a : CNetAddr) : Bool :=
  if IsIPv6 a && decide (∀ i : Fin 16, a.ip i = 0) then false
  else if IsRFC3849 a then false
  else if IsInternal a then false
  else if IsIPv4 a &&
      (decide (∀ i : Fin 16, 12 ≤ i.val → (a.ip i).val = 255) ||
       decide (∀ i : Fin 16, 12 ≤ i.val → (a.ip i).val = 0)) then false
  else true

def IsRoutable (a : CNetAddr) : Bool :=
  IsValid a &&
    !(IsRFC1918 a || IsRFC2544 a || IsRFC3927 a || IsRFC4862 a ||
      IsRFC6598 a || IsRFC5737 a || (IsRFC4193 a && !IsTor a) ||
      IsRFC4843 a || IsRFC7343 a || IsLocal a || IsInternal a)

def GetNetwork (a : CNetAddr) : Network :=
  if IsInternal a then .NET_INTERNAL
  else if !IsRoutable a then .NET_UNROUTABLE
  else a.m_net

def HasLinkedIPv4 (a : CNetAddr) : Bool :=
  IsRoutable a && (IsIPv4 a || IsRFC6145 a || IsRFC6052 a || IsRFC3964 a || IsRFC4380 a)

/-- `ReadBE32(ip + o)`: 4 stored bytes starting at offset `o`, big-endian. -/
def readBE32 (a : CNetAddr) (o : Nat) (h : o + 3 < 16) : Nat :=
  (a.ip ⟨o, by omega⟩).val * 0x1000000 + (a.ip ⟨o + 1, by omega⟩).val * 0x10000 +
    (a.ip ⟨o + 2, by omega⟩).val * 0x100 + (a.ip ⟨o + 3, by omega⟩).val

/-- `GetLinkedIPv4`; `none` stands for the failing `assert(false)` path. -/
def GetLinkedIPv4 (a : CNetAddr) : Option Nat :=
  if IsIPv4 a || IsRFC6145 a || IsRFC6052 a then some (readBE32 a 12 (by omega))
  else if IsRFC3964 a then some (readBE32 a 2 (by omega))
  else if IsRFC4380 a then some (0xFFFFFFFF - readBE32 a 12 (by omega))
  else none

def GetNetClass (a : CNetAddr) : Nat :=
  let base := if IsLocal a then 255 else Network.NET_IPV6.toByte
  if IsInternal a then Network.NET_INTERNAL.toByte
  else if !IsRoutable a then Network.NET_UNROUTABLE.toByte
  else if HasLinkedIPv4 a then Network.NET_IPV4.toByte
  else if IsTor a then Network.NET_ONION.toByte
  else base

/-! Reachability scorer (`GetReachabilityFrom` and its local helpers). -/

/-- `NET_MAX + 0`, the pseudo-class for an absent partner address. -/
def NET_UNKNOWN : Nat := 5

/-- `NET_MAX + 1`, the pseudo-class for an RFC4380 (Teredo) address. -/
def NET_TEREDO : Nat := 6

def REACH_UNREACHABLE : Nat := 0
def REACH_DEFAULT : Nat := 1
def REACH_TEREDO : Nat := 2
def REACH_IPV6_WEAK : Nat := 3
def REACH_IPV4 : Nat := 4
def REACH_IPV6_STRONG : Nat := 5
def REACH_PRIVATE : Nat := 6

def GetExtNetwork : Option CNetAddr → Nat
  | none => NET_UNKNOWN
  | some addr => if IsRFC4380 addr then NET_TEREDO else (GetNetwork addr).toByte

/-- Reachability metric of `a` (the local/candidate address) from a partner. -/
def GetReachabilityFrom (a : CNetAddr) (partner : Option CNetAddr) : Nat :=
  if !IsRoutable a || IsInternal a then REACH_UNREACHABLE
  else
    let ourNet := GetExtNetwork (some a)
    let theirNet := GetExtNetwork partner
    let fTunnel := IsRFC3964 a || IsRFC6052 a || IsRFC6145 a
    if theirNet = Network.NET_IPV4.toByte then
      if ourNet = Network.NET_IPV4.toByte then REACH_IPV4 else REACH_DEFAULT
    else if theirNet = Network.NET_IPV6.toByte then
      if ourNet = NET_TEREDO then REACH_TEREDO
      else if ourNet = Network.NET_IPV4.toByte then REACH_IPV4
      else if ourNet = Network.NET_IPV6.toByte then
        -- only prefer giving our IPv6 address if it is not tunnelled
        if fTunnel then REACH_IPV6_WEAK else REACH_IPV6_STRONG
      else REACH_DEFAULT
    else if theirNet = Network.NET_ONION.toByte then
      if ourNet = Network.NET_IPV4.toByte then REACH_IPV4
      else if ourNet = Network.NET_ONION.toByte then REACH_PRIVATE
      else REACH_DEFAULT
    else if theirNet = NET_TEREDO then
      if ourNet = NET_TEREDO then REACH_TEREDO
      else if ourNet = Network.NET_IPV6.toByte then REACH_IPV6_WEAK
      else if ourNet = Network.NET_IPV4.toByte then REACH_IPV4
      else REACH_DEFAULT
    else
      -- NET_UNKNOWN, NET_UNROUTABLE and the default label of the switch
      if ourNet = NET_TEREDO then REACH_TEREDO
      else if ourNet = Network.NET_IPV6.toByte then REACH_IPV6_WEAK
      else if ourNet = Network.NET_IPV4.toByte then REACH_IPV4
      else if ourNet = Network.NET_ONION.toByte then REACH_PRIVATE
      else REACH_DEFAULT

/-! Group bucketer (`GetMappedAS`, `GetGroup`). -/

/-- The 8 bits of a byte, most significant first (`(b >> (7 - i)) & 1`). -/
def byteBitsMSB (b : Nat) : List Bool :=
  (List.range 8).map (fun i => b.testBit (7 - i))

/-- The 32 bits of a 32-bit value, most significant first. -/
def u32BitsMSB (x : Nat) : List Bool :=
  (List.range 32).map (fun i => x.testBit (31 - i))

/-- The 128-bit lookup key built by `GetMappedAS`: the IPv4-mapped pattern
plus the embedded IPv4 bits for linked-IPv4 addresses, otherwise the 16
stored bytes in order. -/
def ipBits (a : CNetAddr) : List Bool :=
  if HasLinkedIPv4 a then
    ((List.finRange 16).filter (fun i => i.val < 12)).flatMap
        (fun i => byteBitsMSB (pchIPv4 i).val) ++
      u32BitsMSB ((GetLinkedIPv4 a).getD 0)
  else
    (List.finRange 16).flatMap (fun i => byteBitsMSB (a.ip i).val)

/-- `GetMappedAS`, parameterized by the external `Interpret` oracle
(the AS-mapping trie interpreter lives outside this core). -/
def GetMappedAS (interp : List Bool → List Bool → Nat) (a : CNetAddr)
    (asmap : List Bool) : Nat :=
  if asmap.length = 0 ||
      !(decide (GetNetClass a = Network.NET_IPV4.toByte) ||
        decide (GetNetClass a = Network.NET_IPV6.toByte)) then 0
  else interp asmap (ipBits a)

/-- The bit-packing loop at the end of `GetGroup`: `startByte` is the value
of `nStartByte` (so the source's `GetByte(15 - nStartByte)` is the stored
byte `ip[startByte]`); all call sites keep `startByte` below 16, so the
`% 16` index guard never truncates. -/
def packBits (a : CNetAddr) (startByte bits : Nat) : List Nat :=
  if 8 ≤ bits then
    (a.ip ⟨startByte % 16, by omega⟩).val :: packBits a (startByte + 1) (bits - 8)
  else if 0 < bits then
    [(a.ip ⟨startByte % 16, by omega⟩).val ||| (2 ^ (8 - bits) - 1)]
  else []
termination_by bits
decreasing_by omega

/-- The classification-based part of `GetGroup` (everything after the tag
byte when the AS lookup is not used). -/
def classGroup (a : CNetAddr) : List Nat :=
  if IsLocal a then packBits a 0 0
  else if IsInternal a then packBits a 6 80
  else if !IsRoutable a then packBits a 0 0
  else if HasLinkedIPv4 a then
    let ipv4 := (GetLinkedIPv4 a).getD 0
    [(ipv4 >>> 24) &&& 0xFF, (ipv4 >>> 16) &&& 0xFF]
  else if IsTor a then packBits a 6 4
  else if IsHeNet a then packBits a 0 36
  else packBits a 0 32

/-- `GetGroup`, parameterized by the external `Interpret` oracle. -/
def GetGroup (interp : List Bool → List Bool → Nat) (a : CNetAddr)
    (asmap : List Bool) : List Nat :=
  let asn := GetMappedAS interp a asmap
  if asn ≠ 0 then
    [Network.NET_IPV6.toByte, asn &&& 0xFF, (asn >>> 8) &&& 0xFF,
     (asn >>> 16) &&& 0xFF, (asn >>> 24) &&& 0xFF]
  else
    GetNetClass a :: classGroup a

/-! Onion-address construction (`SetSpecial`). -/

/-- `SetSpecial`, parameterized by the external `DecodeBase32` collaborator;
returns the success flag together with the resulting object state. -/
def SetSpecial (decode : String → List (Fin 256)) (prev : CNetAddr)
    (strName : String) : Bool × CNetAddr :=
  if decide (strName.length > 6) &&
      (strName.drop (strName.length - 6) == ".onion") then
    if (decode (strName.take (strName.length - 6))).length ≠ 16 - 6 then
      (false, prev)
    else
      (true,
       { m_net := .NET_ONION,
         ip := fun i =>
           if i.val < 6 then pchOnionCat i
           else (decode (strName.take (strName.length - 6))).getD (i.val - 6) 0 })
  else (false, prev)

/-! Subnet values (`CSubNet` constructors and `Match`). -/

structure CSubNet where
  network : CNetAddr
  netmask : Fin 16 → Fin 256
  valid : Bool

/-- Byte-wise and (`a & b` on `uint8_t`). -/
def byteAnd (a b : Fin 256) : Fin 256 :=
  ⟨a.val &&& b.val, by
    have h := Nat.and_le_right (n := a.val) (m := b.val)
    omega⟩

/-- `NetmaskBits`: number of leading one-bits of a valid CIDR mask byte,
`-1` for any other byte. -/
def NetmaskBits (x : Fin 256) : Int :=
  if x.val = 0x00 then 0
  else if x.val = 0x80 then 1
  else if x.val = 0xc0 then 2
  else if x.val = 0xe0 then 3
  else if x.val = 0xf0 then 4
  else if x.val = 0xf8 then 5
  else if x.val = 0xfc then 6
  else if x.val = 0xfe then 7
  else if x.val = 0xff then 8
  else -1

/-- The validity scan of the explicit-mask constructor, from byte `i` with
`zeros_found` state `zf`: rejects a non-CIDR byte, or a nonzero byte after a
byte with fewer than 8 one-bits.  The loop is bounded structurally by a
`fuel` counter; any fuel of at least `16 - i` gives the loop's behaviour,
because the recursion stops at `i = 16` on its own. -/
def maskScanFuel (mask : CNetAddr) : Nat → Nat → Bool → Bool
  | 0, _, _ => true
  | fuel + 1, i, zf =>
    if h : i < 16 then
      if NetmaskBits (mask.ip ⟨i, h⟩) = -1 ∨
          (zf = true ∧ NetmaskBits (mask.ip ⟨i, h⟩) ≠ 0) then false
      else
        maskScanFuel mask fuel (i + 1)
          (zf || decide (NetmaskBits (mask.ip ⟨i, h⟩) < 8))
    else true

/-- The validity scan of the explicit-mask constructor starting at byte `i`. -/
def maskScanFrom (mask : CNetAddr) (i : Nat) (zf : Bool) : Bool :=
  maskScanFuel mask (16 - i) i zf

/-- Clear bit `n` (MSB-first global bit numbering) of a 16-byte mask:
`netmask[n >> 3] &= ~(1 << (7 - (n & 7)))`.  Call sites keep `n < 128`, so
the `% 16` index guard never truncates. -/
def clearBitHigh (m : Fin 16 → Fin 256) (n : Nat) : Fin 16 → Fin 256 :=
  fun i =>
    if i.val = (n >>> 3) % 16 then
      byteAnd (m i)
        ⟨255 - 2 ^ (7 - n % 8), Nat.lt_succ_of_le (Nat.sub_le _ _)⟩
    else m i

/-- The loop `for (; n < 128; ++n)` clearing mask bits `n .. 127`. -/
def clearBitsFrom (m : Fin 16 → Fin 256) (n : Nat) : Fin 16 → Fin 256 :=
  if n < 128 then clearBitsFrom (clearBitHigh m n) (n + 1) else m
termination_by 128 - n
decreasing_by omega

/-- The prefix-length `CSubNet` constructor
(`CSubNet(const CNetAddr &, int32_t)`). -/
def subnetFromPfxLen (addr : CNetAddr) (mask : Int) : CSubNet :=
  let astartofs : Nat := if IsIPv4 addr then 12 else 0
  let ok : Prop := 0 ≤ mask ∧ mask ≤ 128 - (astartofs : Int) * 8
  let nm : Fin 16 → Fin 256 :=
    if decide ok then
      clearBitsFrom pchSingleAddressNetmask (mask + (astartofs : Int) * 8).toNat
    else pchSingleAddressNetmask
  { network := { m_net := addr.m_net, ip := fun i => byteAnd (addr.ip i) (nm i) },
    netmask := nm,
    valid := decide ok }

/-- The explicit-mask `CSubNet` constructor
(`CSubNet(const CNetAddr &, const CNetAddr &)`).  On the early rejection
path the source leaves the `netmask` member unwritten; it is modelled as
all-zero bytes there. -/
def subnetFromMask (addr mask : CNetAddr) : CSubNet :=
  if maskScanFrom mask (if IsIPv4 mask then 12 else 0) false = false then
    { network := addr, netmask := fun _ => 0, valid := false }
  else
    let astartofs : Nat := if IsIPv4 addr then 12 else 0
    let nm : Fin 16 → Fin 256 :=
      fun i => if astartofs ≤ i.val then mask.ip i else ⟨255, by omega⟩
    { network := { m_net := addr.m_net, ip := fun i => byteAnd (addr.ip i) (nm i) },
      netmask := nm,
      valid := true }

/-- `CSubNet::Match`. -/
def Match (s : CSubNet) (addr : CNetAddr) : Bool :=
  s.valid && IsValid addr && decide (s.network.m_net = addr.m_net) &&
    decide (∀ i : Fin 16, byteAnd (addr.ip i) (s.netmask i) = s.network.ip i)

/-! Specification-side view of netmask contiguity, at the bit level. -/

/-- Bit `t` of a byte, where `t = 0` is the most significant bit. -/
def bitOf (x : Fin 256) (t : Fin 8) : Bool :=
  decide ((x.val >>> (7 - t.val)) % 2 = 1)

/-- Bit `p` of the 16 stored bytes, where `p = 0` is the most significant
bit of the first stored byte. -/
def bitAt (mask : CNetAddr) (p : Fin 128) : Bool :=
  bitOf (mask.ip ⟨p.val / 8, by omega⟩) ⟨p.val % 8, by omega⟩

/-- The mask bits from bit `8 * start` on form a contiguous run of ones
followed by zeros (equivalently: within that range, any set bit forces all
earlier bits of the range to be set). -/
def maskBitsContiguous (mask : CNetAddr) (start : Nat) : Prop :=
  ∀ p q : Fin 128, 8 * start ≤ p.val → p.val ≤ q.val →
    bitAt mask q = true → bitAt mask p = true

/-! Concrete addresses used by witnesses and counterexamples. -/

/-- 127.0.0.1 (IPv4 loopback). -/
def addr127 : CNetAddr :=
  { m_net := .NET_IPV4, ip := byteVec [0,0,0,0,0,0,0,0,0,0,255,255,127,0,0,1] }

/-- 1.2.3.4 (routable IPv4). -/
def addr1234 : CNetAddr :=
  { m_net := .NET_IPV4, ip := byteVec [0,0,0,0,0,0,0,0,0,0,255,255,1,2,3,4] }

/-- 1.2.9.9 (routable IPv4 sharing its /16 with no witness address). -/
def addr1299 : CNetAddr :=
  { m_net := .NET_IPV4, ip := byteVec [0,0,0,0,0,0,0,0,0,0,255,255,1,2,9,9] }

/-- 10.0.0.1 (RFC1918, not routable). -/
def addr10 : CNetAddr :=
  { m_net := .NET_IPV4, ip := byteVec [0,0,0,0,0,0,0,0,0,0,255,255,10,0,0,1] }

/-- 2001:0:...:0102:0304 (RFC4380 Teredo, embedded IPv4 complement). -/
def addrTeredo : CNetAddr :=
  { m_net := .NET_IPV6, ip := byteVec [0x20,0x01,0,0,0,0,0,0,0,0,0,0,1,2,3,4] }

/-- 2002:0102:0304::1 (RFC3964 6to4, embedded IPv4 1.2.3.4). -/
def addr6to4 : CNetAddr :=
  { m_net := .NET_IPV6, ip := byteVec [0x20,0x02,1,2,3,4,0,0,0,0,0,0,0,0,0,1] }

/-- 2001:4::1 (plain routable IPv6). -/
def addrV6 : CNetAddr :=
  { m_net := .NET_IPV6, ip := byteVec [0x20,0x01,0,4,0,0,0,0,0,0,0,0,0,0,0,1] }

/-- An onion-family address (OnionCat pattern plus 10 payload bytes). -/
def addrOnion : CNetAddr :=
  { m_net := .NET_ONION,
    ip := byteVec [0xFD,0x87,0xD8,0x7E,0xEB,0x43,1,2,3,4,5,6,7,8,9,10] }

/-- 192.168.1.0 (subnet base used by subnet witnesses). -/
def net192168 : CNetAddr :=
  { m_net := .NET_IPV4, ip := byteVec [0,0,0,0,0,0,0,0,0,0,255,255,192,168,1,0] }

/-- An IPv4-family mask address carrying 255.255.255.0. -/
def mask24 : CNetAddr :=
  { m_net := .NET_IPV4, ip := byteVec [0,0,0,0,0,0,0,0,0,0,255,255,255,255,255,0] }

/-- An IPv4-family mask with the non-contiguous pattern 0xF0 then 0x0F. -/
def maskF00F : CNetAddr :=
  { m_net := .NET_IPV4, ip := byteVec [0,0,0,0,0,0,0,0,0,0,255,255,0xF0,0x0F,0,0] }

/-- An IPv6-family mask whose first byte 0x0F is not a CIDR byte, with
bytes 12..15 equal to 255.255.255.0. -/
def maskJunkLow : CNetAddr :=
  { m_net := .NET_IPV6, ip := byteVec [0x0F,0,0,0,0,0,0,0,0,0,0,0,255,255,255,0] }

/-- An IPv6-family all-ones-then-zero mask with bytes 12..15 equal to
255.255.255.0 (agrees with `maskJunkLow` on bytes 12..15). -/
def maskOnesLow : CNetAddr :=
  { m_net := .NET_IPV6,
    ip := byteVec [255,255,255,255,255,255,255,255,255,255,255,255,255,255,255,0] }

/-- An IPv4-family mask like `mask24` but with a scribbled unvalidated
low byte (byte 0), agreeing with `mask24` on bytes 12..15. -/
def mask24Scribble : CNetAddr :=
  { m_net := .NET_IPV4, ip := byteVec [7,0,0,0,0,0,0,0,0,0,255,255,255,255,255,0] }

/-- A decode stub that always yields the empty byte vector. -/
def decodeNil : String → List (Fin 256) := fun _ => []

/-- An AS-lookup oracle stub that always answers AS 70000. -/
def oracle70000 : List Bool → List Bool → Nat := fun _ _ => 70000

/-- An AS-lookup oracle stub that always answers "not found". -/
def oracleZero : List Bool → List Bool → Nat := fun _ _ => 0

/-! Helper lemmas. -/

theorem routable_not_local (a : CNetAddr) (h : IsRoutable a = true) :
    IsLocal a = false := by
  cases hl : IsLocal a with
  | false => rfl
  | true => simp [IsRoutable, hl] at h

theorem routable_not_internal (a : CNetAddr) (h : IsRoutable a = true) :
    IsInternal a = false := by
  cases hl : IsInternal a with
  | false => rfl
  | true => simp [IsRoutable, hl] at h

theorem routable_of_linked (a : CNetAddr) (h : HasLinkedIPv4 a = true) :
    IsRoutable a = true := by
  simp [HasLinkedIPv4] at h
  exact h.1

/-! Claim C1. -/

/-- Claim C1 (code bug): for the local address 127.0.0.1, `GetNetClass`
returns `NET_UNROUTABLE` (0), not 255.  The `net_class = 255` assignment for
local addresses is dead: a local address is never routable, and it is not
internal, so the `!IsRoutable()` branch always overwrites the 255. -/
theorem getNetClass_local_eval :
    IsLocal addr127 = true ∧
      GetNetClass addr127 = Network.NET_UNROUTABLE.toByte ∧
      GetNetClass addr127 ≠ 255 := by decide

/-! Claim C6. -/

/-- Claim C6: a candidate address that is not routable or is internal scores
`REACH_UNREACHABLE` for every partner argument, including an absent one. -/
theorem reachability_unroutable_short_circuit (a : CNetAddr) (p : Option CNetAddr)
    (h : IsRoutable a = false ∨ IsInternal a = true) :
    GetReachabilityFrom a p = REACH_UNREACHABLE := by
  rcases h with h | h <;> simp [GetReachabilityFrom, h]

theorem reachability_unroutable_short_circuit_witness :
    (IsRoutable addr10 = false ∨ IsInternal addr10 = true) ∧
      GetReachabilityFrom addr10 none = REACH_UNREACHABLE :=
  ⟨Or.inl (by decide),
   reachability_unroutable_short_circuit addr10 none (Or.inl (by decide))⟩

/-! Claim C9. -/

/-- Claim C9: `SetSpecial` is atomic on failure: whenever it returns false,
the family tag and all 16 stored bytes are exactly the prior state. -/
theorem setSpecial_failure_preserves_state (decode : String → List (Fin 256))
    (prev : CNetAddr) (s : String)
    (h : (SetSpecial decode prev s).fst = false) :
    (SetSpecial decode prev s).snd = prev := by
  unfold SetSpecial at h ⊢
  split_ifs at h ⊢ <;> rfl

theorem setSpecial_failure_preserves_state_witness :
    (SetSpecial decodeNil addr127 "x.onion").fst = false ∧
      (SetSpecial decodeNil addr127 "x.onion").snd = addr127 :=
  ⟨by decide,
   setSpecial_failure_preserves_state decodeNil addr127 "x.onion" (by decide)⟩

/-! Claim C8. -/

/-- Claim C8: constructing from a raw 16-byte buffer derives the family by
testing, in order, the 12-byte IPv4-mapped prefix, the 6-byte onion prefix,
the 6-byte internal prefix, and otherwise IPv6; the stored bytes equal the
input buffer in every case. -/
theorem setLegacyIPv6_family_derivation (buf : Fin 16 → Fin 256) :
    (SetLegacyIPv6 buf).ip = buf ∧
      (SetLegacyIPv6 buf).m_net =
        (if ∀ i : Fin 16, i.val < 12 → buf i = pchIPv4 i then Network.NET_IPV4
         else if ∀ i : Fin 16, i.val < 6 → buf i = pchOnionCat i then
           Network.NET_ONION
         else if ∀ i : Fin 16, i.val < 6 → buf i = g_internal_pfx i then
           Network.NET_INTERNAL
         else Network.NET_IPV6) := by
  constructor
  · unfold SetLegacyIPv6
    split_ifs <;> rfl
  · unfold SetLegacyIPv6 bufPfxEq
    simp only [decide_eq_true_eq]
    split_ifs <;> rfl

/-! Claim C2. -/

/-- Claim C2: for a routable, non-internal candidate `a`: a partner of
extended class IPv4 scores `REACH_IPV4` when `a` is IPv4 and
`REACH_DEFAULT` for every other class of `a`; an Onion partner with an
Onion `a` scores `REACH_PRIVATE`; an IPv6 partner with an IPv6 `a` scores
`REACH_IPV6_STRONG`, or `REACH_IPV6_WEAK` when `a` is a tunneled
(RFC3964/RFC6052/RFC6145) address. -/
theorem reachability_table_cases (a p : CNetAddr)
    (h1 : IsRoutable a = true) (h2 : IsInternal a = false) :
    (GetExtNetwork (some p) = Network.NET_IPV4.toByte →
      GetReachabilityFrom a (some p) =
        if GetExtNetwork (some a) = Network.NET_IPV4.toByte then REACH_IPV4
        else REACH_DEFAULT) ∧
    (GetExtNetwork (some p) = Network.NET_ONION.toByte →
      GetExtNetwork (some a) = Network.NET_ONION.toByte →
      GetReachabilityFrom a (some p) = REACH_PRIVATE) ∧
    (GetExtNetwork (some p) = Network.NET_IPV6.toByte →
      GetExtNetwork (some a) = Network.NET_IPV6.toByte →
      GetReachabilityFrom a (some p) =
        if (IsRFC3964 a || IsRFC6052 a || IsRFC6145 a) = true then
          REACH_IPV6_WEAK
        else REACH_IPV6_STRONG) := by
  refine ⟨?_, ?_, ?_⟩
  · intro hp
    simp [GetReachabilityFrom, h1, h2, hp, Network.toByte, NET_TEREDO]
  · intro hp hq
    simp [GetReachabilityFrom, h1, h2, hp, hq, Network.toByte, NET_TEREDO]
  · intro hp hq
    simp [GetReachabilityFrom, h1, h2, hp, hq, Network.toByte, NET_TEREDO]

theorem reachability_table_cases_witness :
    IsRoutable addrV6 = true ∧ IsInternal addrV6 = false ∧
      ((GetExtNetwork (some addrV6) = Network.NET_IPV4.toByte →
        GetReachabilityFrom addrV6 (some addrV6) =
          if GetExtNetwork (some addrV6) = Network.NET_IPV4.toByte then
            REACH_IPV4
          else REACH_DEFAULT) ∧
      (GetExtNetwork (some addrV6) = Network.NET_ONION.toByte →
        GetExtNetwork (some addrV6) = Network.NET_ONION.toByte →
        GetReachabilityFrom addrV6 (some addrV6) = REACH_PRIVATE) ∧
      (GetExtNetwork (some addrV6) = Network.NET_IPV6.toByte →
        GetExtNetwork (some addrV6) = Network.NET_IPV6.toByte →
        GetReachabilityFrom addrV6 (some addrV6) =
          if (IsRFC3964 addrV6 || IsRFC6052 addrV6 || IsRFC6145 addrV6) = true
          then REACH_IPV6_WEAK
          else REACH_IPV6_STRONG)) :=
  ⟨by decide, by decide,
   reachability_table_cases addrV6 addrV6 (by decide) (by decide)⟩

/-! Claim C3. -/

/-- Claim C3: for an address of net class IPv4 or IPv6 and a non-empty
AS-map on which the oracle answers a nonzero AS number `n`, `GetGroup`
returns exactly the 5-byte key: the IPv6-family tag followed by the 4
AS-number bytes least-significant first; the classification-based grouping
contributes nothing to the result. -/
theorem getGroup_asn_key (interp : List Bool → List Bool → Nat)
    (a : CNetAddr) (asmap : List Bool) (n : Nat) (h1 : asmap ≠ [])
    (h2 : GetNetClass a = Network.NET_IPV4.toByte ∨
      GetNetClass a = Network.NET_IPV6.toByte)
    (h3 : interp asmap (ipBits a) = n) (h4 : n ≠ 0) :
    GetGroup interp a asmap =
      [Network.NET_IPV6.toByte, n &&& 0xFF, (n >>> 8) &&& 0xFF,
       (n >>> 16) &&& 0xFF, (n >>> 24) &&& 0xFF] := by
  have hlen : asmap.length ≠ 0 := by
    simpa using fun he => h1 (List.length_eq_zero.mp he)
  have hm : GetMappedAS interp a asmap = n := by
    unfold GetMappedAS
    rcases h2 with h2 | h2 <;> simp [h2, h3, hlen, Network.toByte]
  unfold GetGroup
  simp [hm, h4]

theorem getGroup_asn_key_witness :
    ([true] : List Bool) ≠ [] ∧
      (GetNetClass addr1234 = Network.NET_IPV4.toByte ∨
        GetNetClass addr1234 = Network.NET_IPV6.toByte) ∧
      oracle70000 [true] (ipBits addr1234) = 70000 ∧ (70000 : Nat) ≠ 0 ∧
      GetGroup oracle70000 addr1234 [true] =
        [Network.NET_IPV6.toByte, 70000 &&& 0xFF, (70000 >>> 8) &&& 0xFF,
         (70000 >>> 16) &&& 0xFF, (70000 >>> 24) &&& 0xFF] :=
  ⟨by decide, Or.inl (by decide), rfl, by decide,
   getGroup_asn_key oracle70000 addr1234 [true] 70000 (by decide)
     (Or.inl (by decide)) rfl (by decide)⟩

/-! Claims C4 and C5: helper lemmas about `GetLinkedIPv4`. -/

theorem readBE32_lt (a : CNetAddr) (o : Nat) (h : o + 3 < 16) :
    readBE32 a o h < 4294967296 := by
  unfold readBE32
  have h0 := (a.ip ⟨o, by omega⟩).isLt
  have h1 := (a.ip ⟨o + 1, by omega⟩).isLt
  have h2 := (a.ip ⟨o + 2, by omega⟩).isLt
  have h3 := (a.ip ⟨o + 3, by omega⟩).isLt
  omega

theorem linked_getD_lt (a : CNetAddr) :
    (GetLinkedIPv4 a).getD 0 < 4294967296 := by
  unfold GetLinkedIPv4
  split_ifs <;> simp only [Option.getD_some, Option.getD_none]
  · exact readBE32_lt a 12 (by omega)
  · exact readBE32_lt a 2 (by omega)
  · omega
  · omega

theorem glink_first_branch (a : CNetAddr)
    (h : IsIPv4 a = true ∨ IsRFC6145 a = true ∨ IsRFC6052 a = true) :
    GetLinkedIPv4 a = some (readBE32 a 12 (by omega)) := by
  unfold GetLinkedIPv4
  rcases h with h | h | h <;> simp [h]

theorem ip6_not_ip4 (a : CNetAddr) (h : IsIPv6 a = true) : IsIPv4 a = false := by
  simp only [IsIPv6, decide_eq_true_eq] at h
  simp [IsIPv4, h]

theorem not_rfc6145_of_byte0_32 (a : CNetAddr)
    (hb : a.ip 0 = (0x20 : Fin 256)) :
    IsRFC6145 a = false := by
  cases hx : IsRFC6145 a with
  | false => rfl
  | true =>
    exfalso
    simp only [IsRFC6145, pfxEq, bufPfxEq, Bool.and_eq_true, decide_eq_true_eq] at hx
    have e := hx.2 0 (by decide)
    exact absurd (hb.symm.trans e) (by decide)

theorem not_rfc6052_of_byte0_32 (a : CNetAddr)
    (hb : a.ip 0 = (0x20 : Fin 256)) :
    IsRFC6052 a = false := by
  cases hx : IsRFC6052 a with
  | false => rfl
  | true =>
    exfalso
    simp only [IsRFC6052, pfxEq, bufPfxEq, Bool.and_eq_true, decide_eq_true_eq] at hx
    have e := hx.2 0 (by decide)
    exact absurd (hb.symm.trans e) (by decide)

theorem not_rfc3964_of_byte1_1 (a : CNetAddr)
    (hb : a.ip 1 = (0x01 : Fin 256)) :
    IsRFC3964 a = false := by
  cases hx : IsRFC3964 a with
  | false => rfl
  | true =>
    exfalso
    simp only [IsRFC3964, GetByte, Bool.and_eq_true, decide_eq_true_eq] at hx
    have e : (a.ip 1).val = 2 := hx.2
    rw [hb] at e
    exact absurd e (by decide)

theorem glink_3964 (a : CNetAddr) (h : IsRFC3964 a = true) :
    GetLinkedIPv4 a = some (readBE32 a 2 (by omega)) := by
  have hparts : IsIPv6 a = true ∧ (a.ip 0).val = 0x20 := by
    simp only [IsRFC3964, GetByte, Bool.and_eq_true, decide_eq_true_eq] at h
    exact ⟨h.1.1, h.1.2⟩
  have hb : a.ip 0 = (0x20 : Fin 256) := Fin.ext hparts.2
  have h4 : IsIPv4 a = false := ip6_not_ip4 a hparts.1
  have h45 : IsRFC6145 a = false := not_rfc6145_of_byte0_32 a hb
  have h52 : IsRFC6052 a = false := not_rfc6052_of_byte0_32 a hb
  unfold GetLinkedIPv4
  simp [h4, h45, h52, h]

theorem glink_4380 (a : CNetAddr) (h : IsRFC4380 a = true) :
    GetLinkedIPv4 a = some (0xFFFFFFFF - readBE32 a 12 (by omega)) := by
  have hparts : IsIPv6 a = true ∧ (a.ip 0).val = 0x20 ∧ (a.ip 1).val = 0x01 := by
    simp only [IsRFC4380, GetByte, Bool.and_eq_true, decide_eq_true_eq] at h
    exact ⟨h.1.1.1.1, h.1.1.1.2, h.1.1.2⟩
  have hb0 : a.ip 0 = (0x20 : Fin 256) := Fin.ext hparts.2.1
  have hb1 : a.ip 1 = (0x01 : Fin 256) := Fin.ext hparts.2.2
  have h4 : IsIPv4 a = false := ip6_not_ip4 a hparts.1
  have h45 : IsRFC6145 a = false := not_rfc6145_of_byte0_32 a hb0
  have h52 : IsRFC6052 a = false := not_rfc6052_of_byte0_32 a hb0
  have h39 : IsRFC3964 a = false := not_rfc3964_of_byte1_1 a hb1
  unfold GetLinkedIPv4
  simp [h4, h45, h52, h39, h]

/-! Claim C5. -/

/-- Claim C5: for every address with a linked IPv4 encoding, `GetLinkedIPv4`
never reaches the failing assertion, and returns: the last 4 stored bytes
big-endian for IPv4/RFC6145/RFC6052; stored bytes 2..5 big-endian for
RFC3964; and the bit-complement of the last 4 stored bytes big-endian for
RFC4380 (Teredo). -/
theorem getLinkedIPv4_total_on_linked (a : CNetAddr)
    (h : HasLinkedIPv4 a = true) :
    (GetLinkedIPv4 a).isSome = true ∧
    ((IsIPv4 a = true ∨ IsRFC6145 a = true ∨ IsRFC6052 a = true) →
      GetLinkedIPv4 a = some (readBE32 a 12 (by omega))) ∧
    (IsRFC3964 a = true → GetLinkedIPv4 a = some (readBE32 a 2 (by omega))) ∧
    (IsRFC4380 a = true →
      GetLinkedIPv4 a = some (0xFFFFFFFF - readBE32 a 12 (by omega))) := by
  refine ⟨?_, fun hc => glink_first_branch a hc, fun hc => glink_3964 a hc,
    fun hc => glink_4380 a hc⟩
  simp only [HasLinkedIPv4, Bool.and_eq_true, Bool.or_eq_true] at h
  rcases h.2 with (((h | h) | h) | h) | h
  · rw [glink_first_branch a (Or.inl h)]; rfl
  · rw [glink_first_branch a (Or.inr (Or.inl h))]; rfl
  · rw [glink_first_branch a (Or.inr (Or.inr h))]; rfl
  · rw [glink_3964 a h]; rfl
  · rw [glink_4380 a h]; rfl

theorem getLinkedIPv4_total_on_linked_witness :
    HasLinkedIPv4 addrTeredo = true ∧
      ((GetLinkedIPv4 addrTeredo).isSome = true ∧
      ((IsIPv4 addrTeredo = true ∨ IsRFC6145 addrTeredo = true ∨
          IsRFC6052 addrTeredo = true) →
        GetLinkedIPv4 addrTeredo = some (readBE32 addrTeredo 12 (by omega))) ∧
      (IsRFC3964 addrTeredo = true →
        GetLinkedIPv4 addrTeredo = some (readBE32 addrTeredo 2 (by omega))) ∧
      (IsRFC4380 addrTeredo = true →
        GetLinkedIPv4 addrTeredo =
          some (0xFFFFFFFF - readBE32 addrTeredo 12 (by omega)))) :=
  ⟨by decide, getLinkedIPv4_total_on_linked addrTeredo (by decide)⟩

/-! Claim C4. -/

theorem getGroup_empty_linked (interp : List Bool → List Bool → Nat)
    (a : CNetAddr) (h : HasLinkedIPv4 a = true) :
    GetGroup interp a [] =
      [Network.NET_IPV4.toByte, ((GetLinkedIPv4 a).getD 0 >>> 24) &&& 255,
       ((GetLinkedIPv4 a).getD 0 >>> 16) &&& 255] := by
  have hr := routable_of_linked a h
  have hi := routable_not_internal a hr
  have hl := routable_not_local a hr
  have hm : GetMappedAS interp a [] = 0 := by simp [GetMappedAS]
  have hnc : GetNetClass a = Network.NET_IPV4.toByte := by
    simp [GetNetClass, hi, hr, h]
  unfold GetGroup
  rw [hm]
  simp only [ne_eq, not_true_eq_false, if_false, ite_false]
  rw [hnc]
  unfold classGroup
  simp [hl, hi, hr, h]

/-- Claim C4: with an empty AS-map, any two linked-IPv4 addresses whose
embedded IPv4 addresses share their top 2 octets get the same group key,
and that key is the IPv4 tag byte followed by exactly those 2 octets. -/
theorem getGroup_linked_ipv4_slash16 (interp : List Bool → List Bool → Nat)
    (a b : CNetAddr) (h1 : HasLinkedIPv4 a = true) (h2 : HasLinkedIPv4 b = true)
    (h3 : (GetLinkedIPv4 a).getD 0 >>> 16 = (GetLinkedIPv4 b).getD 0 >>> 16) :
    GetGroup interp a [] = GetGroup interp b [] ∧
    GetGroup interp a [] =
      [Network.NET_IPV4.toByte, (GetLinkedIPv4 a).getD 0 / 2 ^ 24,
       (GetLinkedIPv4 a).getD 0 / 2 ^ 16 % 256] := by
  have ga := getGroup_empty_linked interp a h1
  have gb := getGroup_empty_linked interp b h2
  have hva := linked_getD_lt a
  constructor
  · rw [ga, gb]
    have h24 : (GetLinkedIPv4 a).getD 0 >>> 24 = (GetLinkedIPv4 b).getD 0 >>> 24 := by
      have he : (24 : Nat) = 16 + 8 := by norm_num
      rw [he, Nat.shiftRight_add, Nat.shiftRight_add, h3]
    rw [h24, h3]
  · rw [ga]
    rw [Nat.shiftRight_eq_div_pow, Nat.shiftRight_eq_div_pow]
    have e255 : (255 : Nat) = 2 ^ 8 - 1 := by norm_num
    rw [e255, Nat.and_pow_two_sub_one_eq_mod, Nat.and_pow_two_sub_one_eq_mod]
    simp only [List.cons.injEq, and_true, true_and]
    norm_num
    omega

theorem getGroup_linked_ipv4_slash16_witness :
    HasLinkedIPv4 addr1234 = true ∧ HasLinkedIPv4 addr1299 = true ∧
      (GetLinkedIPv4 addr1234).getD 0 >>> 16 =
        (GetLinkedIPv4 addr1299).getD 0 >>> 16 ∧
      (GetGroup oracleZero addr1234 [] = GetGroup oracleZero addr1299 [] ∧
       GetGroup oracleZero addr1234 [] =
         [Network.NET_IPV4.toByte, (GetLinkedIPv4 addr1234).getD 0 / 2 ^ 24,
          (GetLinkedIPv4 addr1234).getD 0 / 2 ^ 16 % 256]) :=
  ⟨by decide, by decide, by decide,
   getGroup_linked_ipv4_slash16 oracleZero addr1234 addr1299 (by decide)
     (by decide) (by decide)⟩

/-! Claim C7: netmask contiguity and `Match` soundness. -/

theorem nb_zero_iff : ∀ x : Fin 256, NetmaskBits x = 0 ↔ x = 0 := by decide

theorem nb_lt8 : ∀ x : Fin 256, NetmaskBits x ≠ -1 → x.val ≠ 255 →
    NetmaskBits x < 8 := by decide

theorem bitOf_zero : ∀ t : Fin 8, bitOf 0 t = false := by decide

theorem bitOf_255 : ∀ x : Fin 256, x.val = 255 → ∀ t : Fin 8, bitOf x t = true := by
  decide

theorem nb_bitMono : ∀ x : Fin 256, NetmaskBits x ≠ -1 →
    ∀ s t : Fin 8, s.val ≤ t.val → bitOf x t = true → bitOf x s = true := by decide

theorem maskScanFuel_step (mask : CNetAddr) (d i : Nat) (zf : Bool) (h : i < 16) :
    maskScanFuel mask (d + 1) i zf =
      if NetmaskBits (mask.ip ⟨i, h⟩) = -1 ∨
          (zf = true ∧ NetmaskBits (mask.ip ⟨i, h⟩) ≠ 0) then false
      else maskScanFuel mask d (i + 1)
        (zf || decide (NetmaskBits (mask.ip ⟨i, h⟩) < 8)) := by
  simp only [maskScanFuel]
  rw [dif_pos h]

theorem maskScan_zeros (mask : CNetAddr) :
    ∀ d i, 16 - i ≤ d → maskScanFuel mask d i true = true →
      ∀ j (hj : j < 16), i ≤ j → mask.ip ⟨j, hj⟩ = 0 := by
  intro d
  induction d with
  | zero => intro i hle _ j hj hij; omega
  | succ d ih =>
    intro i hle hscan j hj hij
    have hi : i < 16 := by omega
    rw [maskScanFuel_step mask d i true hi] at hscan
    split_ifs at hscan with hc
    · push_neg at hc
      have hnb0 : NetmaskBits (mask.ip ⟨i, hi⟩) = 0 := hc.2 rfl
      rcases Nat.eq_or_lt_of_le hij with heq | hlt
      · subst heq
        exact (nb_zero_iff _).mp hnb0
      · have hz : (true || decide (NetmaskBits (mask.ip ⟨i, hi⟩) < 8)) = true := by
          simp
        rw [hz] at hscan
        exact ih (i + 1) (by omega) hscan j hj (by omega)

theorem maskScan_noBad (mask : CNetAddr) :
    ∀ d i zf, 16 - i ≤ d → maskScanFuel mask d i zf = true →
      ∀ j (hj : j < 16), i ≤ j → NetmaskBits (mask.ip ⟨j, hj⟩) ≠ -1 := by
  intro d
  induction d with
  | zero => intro i zf hle _ j hj hij; omega
  | succ d ih =>
    intro i zf hle hscan j hj hij
    have hi : i < 16 := by omega
    rw [maskScanFuel_step mask d i zf hi] at hscan
    split_ifs at hscan with hc
    · push_neg at hc
      rcases Nat.eq_or_lt_of_le hij with heq | hlt
      · subst heq
        exact hc.1
      · exact ih (i + 1) _ (by omega) hscan j hj (by omega)

theorem maskScan_tail_zeros (mask : CNetAddr) :
    ∀ d i zf, 16 - i ≤ d → maskScanFuel mask d i zf = true →
      ∀ j k (hj : j < 16) (hk : k < 16), i ≤ j → j < k →
        (mask.ip ⟨j, hj⟩).val ≠ 255 → mask.ip ⟨k, hk⟩ = 0 := by
  intro d
  induction d with
  | zero => intro i zf hle _ j k hj hk hij hjk _; omega
  | succ d ih =>
    intro i zf hle hscan j k hj hk hij hjk h255
    have hi : i < 16 := by omega
    rw [maskScanFuel_step mask d i zf hi] at hscan
    split_ifs at hscan with hc
    · push_neg at hc
      rcases Nat.eq_or_lt_of_le hij with heq | hlt
      · subst heq
        have hnb : NetmaskBits (mask.ip ⟨i, hi⟩) < 8 := nb_lt8 _ hc.1 h255
        have hz : (zf || decide (NetmaskBits (mask.ip ⟨i, hi⟩) < 8)) = true := by
          simp [hnb]
        rw [hz] at hscan
        exact maskScan_zeros mask d (i + 1) (by omega) hscan k hk (by omega)
      · exact ih (i + 1) _ (by omega) hscan j k hj hk (by omega) hjk h255

theorem maskScan_contiguous (mask : CNetAddr) (start : Nat)
    (hs : maskScanFrom mask start false = true) :
    maskBitsContiguous mask start := by
  unfold maskScanFrom at hs
  intro p q hp hpq hq
  have hpj : p.val / 8 < 16 := by omega
  have hqj : q.val / 8 < 16 := by omega
  have hstart_p : start ≤ p.val / 8 := by omega
  have hstart_q : start ≤ q.val / 8 := by omega
  by_cases hb : p.val / 8 = q.val / 8
  · have hnb := maskScan_noBad mask (16 - start) start false (by omega) hs
      (q.val / 8) hqj hstart_q
    have hst : p.val % 8 ≤ q.val % 8 := by omega
    have hbytes : (⟨p.val / 8, hpj⟩ : Fin 16) = ⟨q.val / 8, hqj⟩ := Fin.ext hb
    unfold bitAt at hq ⊢
    rw [hbytes]
    exact nb_bitMono (mask.ip ⟨q.val / 8, hqj⟩) hnb ⟨p.val % 8, by omega⟩
      ⟨q.val % 8, by omega⟩ hst hq
  · have hlt : p.val / 8 < q.val / 8 := by omega
    have hqbyte : mask.ip ⟨q.val / 8, hqj⟩ ≠ 0 := by
      intro h0
      unfold bitAt at hq
      rw [h0] at hq
      exact absurd hq (by simp [bitOf_zero])
    by_cases h255 : (mask.ip ⟨p.val / 8, hpj⟩).val = 255
    · unfold bitAt
      exact bitOf_255 _ h255 _
    · exact absurd (maskScan_tail_zeros mask (16 - start) start false
        (by omega) hs (p.val / 8) (q.val / 8) hpj hqj hstart_p hlt h255) hqbyte

theorem pfxLen_ok_iff (addr : CNetAddr) (n : Int) :
    (subnetFromPfxLen addr n).valid = true ↔
      (0 ≤ n ∧ n ≤ 128 - (if IsIPv4 addr then (12 : Int) else 0) * 8) := by
  unfold subnetFromPfxLen
  cases hi4 : IsIPv4 addr <;> simp [hi4, decide_eq_true_eq]

/-- Claim C7: a subnet built from an out-of-range prefix length, or from an
explicit mask whose bits over the family-relevant range are not a contiguous
ones-then-zeros run, is invalid; `Match` returns false on every invalid
subnet; and `Match s cand = true` forces the subnet valid, the candidate
valid, equal families, and `cand.ip[i] & mask[i] = network.ip[i]` for every
byte. -/
theorem subnet_invalid_and_match_sound (addr mask cand : CNetAddr) (n : Int)
    (s : CSubNet)
    (hn : n < 0 ∨ (128 : Int) - (if IsIPv4 addr then (12 : Int) else 0) * 8 < n)
    (hm : ¬ maskBitsContiguous mask (if IsIPv4 mask then 12 else 0)) :
    (subnetFromPfxLen addr n).valid = false ∧
    (subnetFromMask addr mask).valid = false ∧
    (s.valid = false → Match s cand = false) ∧
    (Match s cand = true →
      s.valid = true ∧ IsValid cand = true ∧ s.network.m_net = cand.m_net ∧
        ∀ i : Fin 16, byteAnd (cand.ip i) (s.netmask i) = s.network.ip i) := by
  refine ⟨?_, ?_, ?_, ?_⟩
  · cases hv : (subnetFromPfxLen addr n).valid with
    | false => rfl
    | true =>
      exfalso
      have hok := (pfxLen_ok_iff addr n).mp hv
      rcases hn with hn | hn <;> omega
  · cases hv : (subnetFromMask addr mask).valid with
    | false => rfl
    | true =>
      exfalso
      have hscan : maskScanFrom mask (if IsIPv4 mask then 12 else 0) false = true := by
        cases hx : maskScanFrom mask (if IsIPv4 mask then 12 else 0) false with
        | true => rfl
        | false =>
          exfalso
          unfold subnetFromMask at hv
          rw [hx] at hv
          simp at hv
      exact hm (maskScan_contiguous mask _ hscan)
  · intro hsv
    simp [Match, hsv]
  · intro hmt
    simp only [Match, Bool.and_eq_true, decide_eq_true_eq] at hmt
    exact ⟨hmt.1.1.1, hmt.1.1.2, hmt.1.2, hmt.2⟩

theorem subnet_invalid_and_match_sound_witness :
    ((-1 : Int) < 0 ∨
      (128 : Int) - (if IsIPv4 net192168 then (12 : Int) else 0) * 8 < -1) ∧
    (¬ maskBitsContiguous maskF00F (if IsIPv4 maskF00F then 12 else 0)) ∧
    ((subnetFromPfxLen net192168 (-1)).valid = false ∧
     (subnetFromMask net192168 maskF00F).valid = false ∧
     ((subnetFromMask net192168 maskF00F).valid = false →
       Match (subnetFromMask net192168 maskF00F) addr1234 = false) ∧
     (Match (subnetFromMask net192168 maskF00F) addr1234 = true →
       (subnetFromMask net192168 maskF00F).valid = true ∧
         IsValid addr1234 = true ∧
         (subnetFromMask net192168 maskF00F).network.m_net = addr1234.m_net ∧
         ∀ i : Fin 16,
           byteAnd (addr1234.ip i)
               ((subnetFromMask net192168 maskF00F).netmask i) =
             (subnetFromMask net192168 maskF00F).network.ip i)) := by
  have hmW : ¬ maskBitsContiguous maskF00F (if IsIPv4 maskF00F then 12 else 0) := by
    intro hcontig
    have hbit := hcontig 100 108 (by decide) (by decide) (by decide)
    exact absurd hbit (by decide)
  exact ⟨Or.inl (by decide), hmW,
    subnet_invalid_and_match_sound net192168 maskF00F addr1234 (-1)
      (subnetFromMask net192168 maskF00F) (Or.inl (by decide)) hmW⟩

/-! Claim C10. -/

theorem maskScanFuel_congr (mA mB : CNetAddr) :
    ∀ d i zf,
      (∀ j (hj : j < 16), i ≤ j → mA.ip ⟨j, hj⟩ = mB.ip ⟨j, hj⟩) →
      maskScanFuel mA d i zf = maskScanFuel mB d i zf := by
  intro d
  induction d with
  | zero => intro i zf _; rfl
  | succ d ih =>
    intro i zf hag
    by_cases hi : i < 16
    · rw [maskScanFuel_step mA d i zf hi, maskScanFuel_step mB d i zf hi]
      rw [hag i hi (le_refl i)]
      split_ifs with hcond
      · rfl
      · exact ih (i + 1) _ (fun j hj hij => hag j hj (by omega))
    · simp only [maskScanFuel]
      rw [dif_neg hi, dif_neg hi]

/-- Claim C10 counterexample: with the IPv4 network address 192.168.1.0,
the IPv6-family masks `maskJunkLow` and `maskOnesLow` agree on bytes 12..15,
yet one yields an invalid subnet and the other a valid one: the validity
scan starts at byte 0 (not 12) because the range is chosen by the mask
argument's family, so mask bytes 0..11 are validated for a non-IPv4 mask. -/
theorem subnetFromMask_family_range_cex :
    IsIPv4 net192168 = true ∧
      (∀ i : Fin 16, 12 ≤ i.val → maskJunkLow.ip i = maskOnesLow.ip i) ∧
      (subnetFromMask net192168 maskJunkLow).valid = false ∧
      (subnetFromMask net192168 maskOnesLow).valid = true := by decide

/-- Claim C10 (amended): for an IPv4-family network address and IPv4-family
mask arguments, the constructor depends only on mask bytes 12..15: two
IPv4-family masks agreeing there give subnets with identical validity and
identical normalized network, and identical stored netmask whenever valid
(on the rejection path the source leaves the netmask member unwritten). -/
theorem subnetFromMask_ipv4_masks_agree (net mA mB : CNetAddr)
    (h0 : IsIPv4 net = true) (h1 : IsIPv4 mA = true) (h2 : IsIPv4 mB = true)
    (h3 : ∀ i : Fin 16, 12 ≤ i.val → mA.ip i = mB.ip i) :
    (subnetFromMask net mA).valid = (subnetFromMask net mB).valid ∧
    (subnetFromMask net mA).network = (subnetFromMask net mB).network ∧
    ((subnetFromMask net mA).valid = true →
      ∀ i : Fin 16,
        (subnetFromMask net mA).netmask i = (subnetFromMask net mB).netmask i) := by
  have hscan : maskScanFrom mA (if IsIPv4 mA then 12 else 0) false =
      maskScanFrom mB (if IsIPv4 mB then 12 else 0) false := by
    rw [h1, h2]
    simp only [if_true]
    unfold maskScanFrom
    exact maskScanFuel_congr mA mB (16 - 12) 12 false
      (fun j hj hij => h3 ⟨j, hj⟩ hij)
  unfold subnetFromMask
  rw [hscan]
  by_cases hx : maskScanFrom mB (if IsIPv4 mB then 12 else 0) false = false
  · simp [hx]
  · simp only [if_neg hx, h0, if_true]
    refine ⟨by trivial, ?_, ?_⟩
    · have hip : (fun i : Fin 16 =>
          byteAnd (net.ip i) (if 12 ≤ i.val then mA.ip i else ⟨255, by omega⟩)) =
          (fun i : Fin 16 =>
          byteAnd (net.ip i) (if 12 ≤ i.val then mB.ip i else ⟨255, by omega⟩)) := by
        funext i
        by_cases hi12 : 12 ≤ i.val
        · rw [if_pos hi12, if_pos hi12, h3 i hi12]
        · rw [if_neg hi12, if_neg hi12]
      rw [hip]
    · intro _ i
      by_cases hi12 : 12 ≤ i.val
      · simp only [if_pos hi12]
        exact h3 i hi12
      · simp only [if_neg hi12]

theorem subnetFromMask_ipv4_masks_agree_witness :
    IsIPv4 net192168 = true ∧ IsIPv4 mask24 = true ∧
      IsIPv4 mask24Scribble = true ∧
      (∀ i : Fin 16, 12 ≤ i.val → mask24.ip i = mask24Scribble.ip i) ∧
      ((subnetFromMask net192168 mask24).valid =
          (subnetFromMask net192168 mask24Scribble).valid ∧
        (subnetFromMask net192168 mask24).network =
          (subnetFromMask net192168 mask24Scribble).network ∧
        ((subnetFromMask net192168 mask24).valid = true →
          ∀ i : Fin 16,
            (subnetFromMask net192168 mask24).netmask i =
              (subnetFromMask net192168 mask24Scribble).netmask i)) :=
  ⟨by decide, by decide, by decide, by decide,
   subnetFromMask_ipv4_masks_agree net192168 mask24 mask24Scribble
     (by decide) (by decide) (by decide) (by decide)⟩

end Netaddr
